import Mathlib

/-!
Verification of the raffle-booklet generator (`main.go`).

The Go program is embedded shallowly:
* machine `int`s become `ℤ` (the values in play are far from 64-bit overflow);
* the mutable `map[int]bool` set of used numbers becomes a `Finset ℤ`
  (the program only ever stores `true`);
* `rand.Intn` becomes an oracle stream of draws (`RandStream`), with the
  contract of `Intn` (results below the bound) and a fairness assumption
  (every residue keeps occurring) modelling genuine randomness;
* the mutable RGBA page image becomes a total function `ℤ → ℤ → RGBA`
  together with the canvas bounds; `(*image.RGBA).Set`, which silently
  ignores out-of-bounds writes, becomes `setPix`;
* file, font and PNG I/O (`cargarFuentePersonalizada`, `cargarImagenBase`,
  `os.MkdirAll`, `guardarImagen`) are external collaborators per the spec
  and are not modelled; the pure computations around them are.
-/

/-- An RGBA pixel, mirroring Go's `color.RGBA` (channel overflow plays no
role in any claim, so channels are plain naturals). -/
structure RGBA where
  r : ℕ
  g : ℕ
  b : ℕ
  a : ℕ
deriving DecidableEq

/-- A page image: pixel contents as a total function; the canvas bounds
`(W, H)` of the underlying `image.Rect(0, 0, W, H)` are passed alongside. -/
def Canvas : Type := ℤ → ℤ → RGBA

/-- Model of `(*image.RGBA).Set x y col` on an image with bounds
`Rect(0,0,W,H)`: Go's `Set` silently does nothing when `(x,y)` is outside
the rectangle. -/
def setPix (W H : ℤ) (img : Canvas) (px py : ℤ) (col : RGBA) : Canvas :=
  if 0 ≤ px ∧ px < W ∧ 0 ≤ py ∧ py < H then
    fun u v => if u = px ∧ v = py then col else img u v
  else img

/-- The numeric and style fields of Go's `Config` struct.  The file-path,
font and output-folder fields (`ImagenBase`, `CarpetaSalida`, `RutaFuente`,
`TamanoFuente`, `Fuente`) belong to the external I/O collaborators and are
omitted. -/
structure Config where
  BoletasPorFila : ℤ
  NumeroMinimo : ℤ
  NumeroMaximo : ℤ
  BoletasPorPagina : ℤ
  CantidadPaginas : ℤ
  AnchoTalonario : ℤ
  AltoTalonario : ℤ
  MargenSuperior : ℤ
  MargenInferior : ℤ
  MargenIzquierdo : ℤ
  MargenDerecho : ℤ
  ColorTexto : RGBA
  ColorBorde : RGBA
  AnchoLineas : ℤ
  OrientacionBoletas : ℤ
deriving DecidableEq

/-- Go `Boleta` struct. -/
structure Boleta where
  Numero : ℤ
  Formateado : String
deriving DecidableEq

/-- Go `Talonario` struct. -/
structure Talonario where
  ID : ℤ
  Boletas : List Boleta
deriving DecidableEq

/-- `validarConfig`, transcribed check for check in source order; `some msg`
models returning a non-nil `error`. -/
def validarConfig (c : Config) : Option String :=
  if c.BoletasPorPagina * c.CantidadPaginas > c.NumeroMaximo - c.NumeroMinimo + 1 then
    some "no hay suficientes numeros"
  else if c.BoletasPorPagina ≤ 0 ∨ c.CantidadPaginas ≤ 0 then
    some "la cantidad de boletas y paginas debe ser mayor a 0"
  else if c.BoletasPorFila ≤ 0 then
    some "el numero de boletas por fila debe ser mayor a 0"
  else if c.MargenSuperior < 0 ∨ c.MargenInferior < 0 ∨
      c.MargenIzquierdo < 0 ∨ c.MargenDerecho < 0 then
    some "los margenes deben ser positivos o cero"
  else
    none

/-- Everything a passing validation guarantees, extracted from the
`if`-chain of `validarConfig`. -/
theorem validarConfig_ok {c : Config} (h : validarConfig c = none) :
    c.BoletasPorPagina * c.CantidadPaginas ≤ c.NumeroMaximo - c.NumeroMinimo + 1 ∧
    0 < c.BoletasPorPagina ∧ 0 < c.CantidadPaginas ∧ 0 < c.BoletasPorFila ∧
    0 ≤ c.MargenSuperior ∧ 0 ≤ c.MargenInferior ∧
    0 ≤ c.MargenIzquierdo ∧ 0 ≤ c.MargenDerecho := by
  unfold validarConfig at h
  split_ifs at h with h1 h2 h3 h4
  push_neg at h1 h2 h4
  exact ⟨by omega, h2.1, h2.2, by omega, h4.1, h4.2.1, h4.2.2.1, h4.2.2.2⟩

/-- The digit character for `d < 10` (code point `48 + d`). -/
def digitChar (d : ℕ) : Char := Char.ofNat (48 + d)

/-- Fuel-based little loop behind `itoaNat`; fuel `n` always suffices for
argument `n` (structural recursion so that the kernel can evaluate it). -/
def itoaNatAux : ℕ → ℕ → List ℕ
  | 0, _ => []
  | _ + 1, 0 => []
  | fuel + 1, n + 1 => ((n + 1) % 10) :: itoaNatAux fuel ((n + 1) / 10)

/-- Decimal representation of a natural, as `strconv.Itoa` produces for
non-negative input. -/
def itoaNat (n : ℕ) : String :=
  if n = 0 then "0" else String.mk ((itoaNatAux n n).reverse.map digitChar)

/-- Model of Go `strconv.Itoa` on `int`: decimal digits, with a leading
minus sign for negatives. -/
def itoaInt (n : ℤ) : String :=
  if n < 0 then "-" ++ itoaNat n.natAbs else itoaNat n.toNat

/-- `gen.digitosFormato = len(strconv.Itoa(config.NumeroMaximo))` from
`NewGeneradorTalonarios`. -/
def digitosFormato (c : Config) : ℕ := (itoaInt c.NumeroMaximo).length

/-- Left-pad a string with copies of `ch` up to width `w` (no-op when the
string is already at least that wide). -/
def leftPad (w : ℕ) (ch : Char) (s : String) : String :=
  String.mk (List.replicate (w - s.length) ch) ++ s

/-- `formatearNumero`: Go's `fmt.Sprintf("%0Nd", numero)`.  For a negative
argument Go emits the sign first and pads the digits to total width `N`
(so `%04d` of `-7` is `"-007"`). -/
def formatearNumero (digitos : ℕ) (n : ℤ) : String :=
  if n < 0 then "-" ++ leftPad (digitos - 1) '0' (itoaNat n.natAbs)
  else leftPad digitos '0' (itoaNat n.toNat)

/-- The pure core of `NewGeneradorTalonarios`: the constructed generator
state.  Font loading, background-image decoding and output-folder creation
are external collaborators (spec sections 1 and 6) and are not modelled. -/
structure GeneradorTalonarios where
  config : Config
  numerosUsados : Finset ℤ
  digitos : ℕ
deriving DecidableEq

/-- `NewGeneradorTalonarios`: computes the format width, then validates;
a validation error aborts construction.  The freshly built generator has
an empty used-number set (`make(map[int]bool)`). -/
def NewGeneradorTalonarios (c : Config) : Except String GeneradorTalonarios :=
  match validarConfig c with
  | some e => Except.error e
  | none => Except.ok ⟨c, ∅, digitosFormato c⟩

/-- The concrete `Config` literal from `main()` (numeric and color fields). -/
def configMain : Config where
  BoletasPorFila := 1
  NumeroMinimo := 0
  NumeroMaximo := 9999
  BoletasPorPagina := 10
  CantidadPaginas := 500
  AnchoTalonario := 1080
  AltoTalonario := 1920
  MargenSuperior := 610
  MargenInferior := 440
  MargenIzquierdo := 50
  MargenDerecho := 50
  ColorTexto := ⟨248, 220, 191, 255⟩
  ColorBorde := ⟨248, 220, 191, 255⟩
  AnchoLineas := 5
  OrientacionBoletas := 0

/-- Range size `config.NumeroMaximo - config.NumeroMinimo + 1` used as the
bound of `rand.Intn`. -/
def totalNumeros (c : Config) : ℕ := (c.NumeroMaximo - c.NumeroMinimo + 1).toNat

/-- Oracle model of the `math/rand` source consumed by
`generarNumeroAleatorio`: `s k` is the result of the `k`-th call to
`rand.Intn(total)`.  `bounded` is `Intn`'s contract; `complete` says every
residue keeps being drawn — the almost-sure behavior of a genuine uniform
source, and the faithful termination assumption for rejection sampling. -/
structure RandStream (total : ℕ) where
  s : ℕ → ℕ
  bounded : ∀ k, s k < total
  complete : ∀ start v, v < total → ∃ k, start ≤ k ∧ s k = v

/-- While fewer in-range numbers are used than the range holds, some draw
from position `start` onward lands outside the used set: the rejection
loop's exit condition is eventually satisfied. -/
theorem exists_unused (mn : ℤ) (total : ℕ) (rs : RandStream total) (used : Finset ℤ)
    (start : ℕ) (hsub : used ⊆ Finset.Ico mn (mn + (total : ℤ)))
    (hlt : used.card < total) :
    ∃ k, (mn + (rs.s (start + k) : ℤ)) ∉ used := by
  have hcard : (Finset.Ico mn (mn + (total : ℤ))).card = total := by
    rw [Int.card_Ico]; omega
  have hss : used ⊂ Finset.Ico mn (mn + (total : ℤ)) := by
    refine Finset.ssubset_iff_subset_ne.mpr ⟨hsub, ?_⟩
    intro hEq
    rw [hEq, hcard] at hlt
    omega
  obtain ⟨v, hvI, hvU⟩ := Finset.exists_of_ssubset hss
  rw [Finset.mem_Ico] at hvI
  obtain ⟨k, hk, hsk⟩ := rs.complete start (v - mn).toNat (by omega)
  refine ⟨k - start, ?_⟩
  have h1 : start + (k - start) = k := by omega
  rw [h1, hsk]
  have h2 : mn + ((v - mn).toNat : ℤ) = v := by omega
  rw [h2]
  exact hvU

/-- `generarNumeroAleatorio`: rejection sampling.  The Go loop keeps
drawing `rand.Intn(max-min+1) + min` until the draw is not in
`numerosUsados`, then records and returns it.  Its denotation takes the
draw at the first succeeding position (`Nat.find`); the hypotheses are the
precondition under which the loop exits (established by `validarConfig`
for every call the program makes).  Returns the number, the grown used
set, and the position after the consumed draws. -/
def generarNumeroAleatorio (mn : ℤ) (total : ℕ) (rs : RandStream total) (used : Finset ℤ)
    (start : ℕ) (hsub : used ⊆ Finset.Ico mn (mn + (total : ℤ)))
    (hlt : used.card < total) : ℤ × Finset ℤ × ℕ :=
  let k := Nat.find (exists_unused mn total rs used start hsub hlt)
  let numero := mn + (rs.s (start + k) : ℤ)
  (numero, insert numero used, start + k + 1)

/-- The allocated number is fresh, lies in `[min, min + total)`, and is
inserted into the used set. -/
theorem generarNumeroAleatorio_spec (mn : ℤ) (total : ℕ) (rs : RandStream total)
    (used : Finset ℤ) (start : ℕ) (hsub : used ⊆ Finset.Ico mn (mn + (total : ℤ)))
    (hlt : used.card < total) :
    (generarNumeroAleatorio mn total rs used start hsub hlt).1 ∉ used ∧
    mn ≤ (generarNumeroAleatorio mn total rs used start hsub hlt).1 ∧
    (generarNumeroAleatorio mn total rs used start hsub hlt).1 < mn + total ∧
    (generarNumeroAleatorio mn total rs used start hsub hlt).2.1 =
      insert (generarNumeroAleatorio mn total rs used start hsub hlt).1 used := by
  refine ⟨Nat.find_spec (exists_unused mn total rs used start hsub hlt), ?_, ?_, rfl⟩
  · show mn ≤ mn + (rs.s _ : ℤ)
    omega
  · show mn + (rs.s (start + Nat.find (exists_unused mn total rs used start hsub hlt)) : ℤ) <
      mn + total
    have := rs.bounded (start + Nat.find (exists_unused mn total rs used start hsub hlt))
    omega

/-- The body of `crearTalonario`'s loop: allocate `count` numbers in
order, formatting each into a `Boleta`.  Threads the used set and the
draw position; the two invariants (used numbers stay in range, enough
range remains) feed each allocation's precondition. -/
def crearBoletas (mn : ℤ) (total : ℕ) (rs : RandStream total) (digitos : ℕ) :
    (count : ℕ) → (used : Finset ℤ) → (start : ℕ) →
    used ⊆ Finset.Ico mn (mn + (total : ℤ)) → used.card + count ≤ total →
    List Boleta × Finset ℤ × ℕ
  | 0, used, start, _, _ => ([], used, start)
  | count + 1, used, start, hsub, hcard =>
    let r := generarNumeroAleatorio mn total rs used start hsub (by omega)
    let rest := crearBoletas mn total rs digitos count r.2.1 r.2.2
      (by
        have h := generarNumeroAleatorio_spec mn total rs used start hsub (by omega)
        show (generarNumeroAleatorio mn total rs used start hsub _).2.1 ⊆ _
        rw [h.2.2.2]
        exact Finset.insert_subset (Finset.mem_Ico.mpr ⟨h.2.1, h.2.2.1⟩) hsub)
      (by
        have h := generarNumeroAleatorio_spec mn total rs used start hsub (by omega)
        show (generarNumeroAleatorio mn total rs used start hsub _).2.1.card + count ≤ total
        rw [h.2.2.2, Finset.card_insert_of_not_mem h.1]
        omega)
    (⟨r.1, formatearNumero digitos r.1⟩ :: rest.1, rest.2)

/-- Invariants of the allocation loop of `crearTalonario`: it produces
`count` tickets whose numbers are fresh (not previously used), in range,
pairwise distinct, correctly formatted, and it grows the used set by
exactly those numbers. -/
theorem crearBoletas_spec (mn : ℤ) (total : ℕ) (rs : RandStream total) (digitos : ℕ) :
    ∀ (count : ℕ) (used : Finset ℤ) (start : ℕ)
      (hsub : used ⊆ Finset.Ico mn (mn + (total : ℤ))) (hcard : used.card + count ≤ total),
      (crearBoletas mn total rs digitos count used start hsub hcard).1.length = count ∧
      (∀ b ∈ (crearBoletas mn total rs digitos count used start hsub hcard).1,
        mn ≤ b.Numero ∧ b.Numero < mn + total ∧ b.Numero ∉ used ∧
        b.Formateado = formatearNumero digitos b.Numero) ∧
      ((crearBoletas mn total rs digitos count used start hsub hcard).1.map Boleta.Numero).Nodup ∧
      (∀ v : ℤ, v ∈ (crearBoletas mn total rs digitos count used start hsub hcard).2.1 ↔
        v ∈ used ∨
          v ∈ (crearBoletas mn total rs digitos count used start hsub hcard).1.map
            Boleta.Numero) ∧
      (crearBoletas mn total rs digitos count used start hsub hcard).2.1 ⊆
        Finset.Ico mn (mn + (total : ℤ)) ∧
      (crearBoletas mn total rs digitos count used start hsub hcard).2.1.card =
        used.card + count := by
  intro count
  induction count with
  | zero =>
    intro used start hsub hcard
    simp [crearBoletas]
    exact hsub
  | succ n ih =>
    intro used start hsub hcard
    have hgen := generarNumeroAleatorio_spec mn total rs used start hsub (by omega)
    simp only [crearBoletas]
    refine ⟨?_, ?_, ?_, ?_, ?_, ?_⟩
    · simp [(ih _ _ _ _).1]
    · intro b hb
      rcases List.mem_cons.mp hb with hb | hb
      · subst hb
        exact ⟨hgen.2.1, hgen.2.2.1, hgen.1, rfl⟩
      · have h2 := (ih _ _ _ _).2.1 b hb
        refine ⟨h2.1, h2.2.1, ?_, h2.2.2.2⟩
        intro hmem
        exact h2.2.2.1 (by rw [hgen.2.2.2]; exact Finset.mem_insert_of_mem hmem)
    · rw [List.map_cons, List.nodup_cons]
      refine ⟨?_, (ih _ _ _ _).2.2.1⟩
      intro hmem
      rcases List.mem_map.mp hmem with ⟨b, hb, hnum⟩
      have h2 := (ih _ _ _ _).2.1 b hb
      apply h2.2.2.1
      rw [hgen.2.2.2, hnum]
      exact Finset.mem_insert_self _ _
    · intro v
      rw [List.map_cons, List.mem_cons]
      rw [(ih _ _ _ _).2.2.2.1 v]
      have hmem := Finset.ext_iff.mp hgen.2.2.2 v
      rw [Finset.mem_insert] at hmem
      rw [hmem]
      tauto
    · exact (ih _ _ _ _).2.2.2.2.1
    · rw [(ih _ _ _ _).2.2.2.2.2, hgen.2.2.2, Finset.card_insert_of_not_mem hgen.1]
      omega

/-- `crearTalonario`: one page of `count` freshly numbered, formatted
tickets with the given page id. -/
def crearTalonario (mn : ℤ) (total : ℕ) (rs : RandStream total) (digitos : ℕ) (count : ℕ)
    (id : ℤ) (used : Finset ℤ) (start : ℕ)
    (hsub : used ⊆ Finset.Ico mn (mn + (total : ℤ)))
    (hcard : used.card + count ≤ total) : Talonario × Finset ℤ × ℕ :=
  let r := crearBoletas mn total rs digitos count used start hsub hcard
  (⟨id, r.1⟩, r.2)

/-- The page loop of `GenerarTodos`: pages `id, id+1, ...` produced
strictly sequentially, sharing the one used set, which is never reset
between pages.  Writing each page to disk (`guardarImagen`) is external
I/O and not modelled. -/
def generarTodosAux (mn : ℤ) (total : ℕ) (rs : RandStream total) (digitos : ℕ)
    (porPagina : ℕ) :
    (paginas : ℕ) → (id : ℤ) → (used : Finset ℤ) → (start : ℕ) →
    used ⊆ Finset.Ico mn (mn + (total : ℤ)) → used.card + paginas * porPagina ≤ total →
    List Talonario × Finset ℤ × ℕ
  | 0, _, used, start, _, _ => ([], used, start)
  | paginas + 1, id, used, start, hsub, hcard =>
    let r := crearTalonario mn total rs digitos porPagina id used start hsub
      (by rw [Nat.succ_mul] at hcard; omega)
    let rest := generarTodosAux mn total rs digitos porPagina paginas (id + 1) r.2.1 r.2.2
      (by
        have h := crearBoletas_spec mn total rs digitos porPagina used start hsub
          (by rw [Nat.succ_mul] at hcard; omega)
        exact h.2.2.2.2.1)
      (by
        have h := crearBoletas_spec mn total rs digitos porPagina used start hsub
          (by rw [Nat.succ_mul] at hcard; omega)
        show (crearBoletas mn total rs digitos porPagina used start hsub _).2.1.card +
          paginas * porPagina ≤ total
        rw [h.2.2.2.2.2, Nat.succ_mul] at *
        omega)
    (r.1 :: rest.1, rest.2)

/-- Invariants of the page loop: page count, page size, freshness, global
distinctness across pages, and the final used set. -/
theorem generarTodosAux_spec (mn : ℤ) (total : ℕ) (rs : RandStream total) (digitos : ℕ)
    (porPagina : ℕ) :
    ∀ (paginas : ℕ) (id : ℤ) (used : Finset ℤ) (start : ℕ)
      (hsub : used ⊆ Finset.Ico mn (mn + (total : ℤ)))
      (hcard : used.card + paginas * porPagina ≤ total),
      (generarTodosAux mn total rs digitos porPagina paginas id used start hsub hcard).1.length =
        paginas ∧
      (∀ t ∈ (generarTodosAux mn total rs digitos porPagina paginas id used start hsub hcard).1,
        t.Boletas.length = porPagina) ∧
      (∀ t ∈ (generarTodosAux mn total rs digitos porPagina paginas id used start hsub hcard).1,
        ∀ b ∈ t.Boletas, mn ≤ b.Numero ∧ b.Numero < mn + total ∧ b.Numero ∉ used ∧
          b.Formateado = formatearNumero digitos b.Numero) ∧
      ((generarTodosAux mn total rs digitos porPagina paginas id used start hsub hcard).1.flatMap
        fun t => t.Boletas.map Boleta.Numero).Nodup ∧
      (∀ v : ℤ,
        v ∈ (generarTodosAux mn total rs digitos porPagina paginas id used start hsub hcard).2.1 ↔
        v ∈ used ∨
          v ∈ (generarTodosAux mn total rs digitos porPagina paginas id used start
            hsub hcard).1.flatMap fun t => t.Boletas.map Boleta.Numero) := by
  intro paginas
  induction paginas with
  | zero =>
    intro id used start hsub hcard
    simp [generarTodosAux]
  | succ n ih =>
    intro id used start hsub hcard
    simp only [generarTodosAux, crearTalonario]
    refine ⟨?_, ?_, ?_, ?_, ?_⟩
    · simp [(ih _ _ _ _ _).1]
    · intro t ht
      rcases List.mem_cons.mp ht with ht | ht
      · subst ht
        exact (crearBoletas_spec mn total rs digitos porPagina used start hsub _).1
      · exact (ih _ _ _ _ _).2.1 t ht
    · intro t ht
      rcases List.mem_cons.mp ht with ht | ht
      · subst ht
        intro b hb
        exact (crearBoletas_spec mn total rs digitos porPagina used start hsub _).2.1 b hb
      · intro b hb
        have h3 := (ih _ _ _ _ _).2.2.1 t ht b hb
        refine ⟨h3.1, h3.2.1, ?_, h3.2.2.2⟩
        intro hmem
        exact h3.2.2.1
          (((crearBoletas_spec mn total rs digitos porPagina used start hsub _).2.2.2.1
            b.Numero).mpr (Or.inl hmem))
    · rw [List.flatMap_cons, List.nodup_append]
      refine ⟨(crearBoletas_spec mn total rs digitos porPagina used start hsub _).2.2.1,
        (ih _ _ _ _ _).2.2.2.1, ?_⟩
      intro a ha ha'
      rcases List.mem_flatMap.mp ha' with ⟨t, ht, hat⟩
      rcases List.mem_map.mp hat with ⟨b, hb, hba⟩
      have h3 := (ih _ _ _ _ _).2.2.1 t ht b hb
      apply h3.2.2.1
      rw [hba]
      exact ((crearBoletas_spec mn total rs digitos porPagina used start hsub _).2.2.2.1
        a).mpr (Or.inr ha)
    · intro v
      rw [List.flatMap_cons, List.mem_append]
      rw [(ih _ _ _ _ _).2.2.2.2 v]
      rw [(crearBoletas_spec mn total rs digitos porPagina used start hsub _).2.2.2.1 v]
      tauto

/-- `GenerarTodos`: the whole run.  Produces the pages in order with ids
`1..CantidadPaginas`, one shared allocator state throughout; page
rendering and PNG writing are external collaborators.  The preconditions
of every allocation follow from `validarConfig` having passed. -/
def GenerarTodos (c : Config) (rs : RandStream (totalNumeros c))
    (hval : validarConfig c = none) : List Talonario :=
  (generarTodosAux c.NumeroMinimo (totalNumeros c) rs (digitosFormato c)
    c.BoletasPorPagina.toNat c.CantidadPaginas.toNat 1 ∅ 0
    (by simp)
    (by
      have h := validarConfig_ok hval
      have hpos := mul_pos h.2.1 h.2.2.1
      have hT : (0:ℤ) ≤ c.NumeroMaximo - c.NumeroMinimo + 1 := by linarith [h.1]
      rw [Finset.card_empty]
      have hcast : ((c.CantidadPaginas.toNat * c.BoletasPorPagina.toNat : ℕ) : ℤ) ≤
          c.NumeroMaximo - c.NumeroMinimo + 1 := by
        push_cast
        rw [Int.toNat_of_nonneg (by omega), Int.toNat_of_nonneg (by omega)]
        calc c.CantidadPaginas * c.BoletasPorPagina
            = c.BoletasPorPagina * c.CantidadPaginas := by ring
          _ ≤ c.NumeroMaximo - c.NumeroMinimo + 1 := h.1
      simp only [Nat.zero_add, totalNumeros]
      omega)).1

/-- C1: for every run whose configuration passes validation, the full
generator produces exactly `CantidadPaginas` pages of `BoletasPorPagina`
tickets each, and the allocated numbers are pairwise distinct across the
entire run and all lie within `[NumeroMinimo, NumeroMaximo]`. -/
theorem generarTodos_paginas_y_numeros_unicos (c : Config)
    (rs : RandStream (totalNumeros c)) (hval : validarConfig c = none) :
    (GenerarTodos c rs hval).length = c.CantidadPaginas.toNat ∧
    (∀ t ∈ GenerarTodos c rs hval, t.Boletas.length = c.BoletasPorPagina.toNat) ∧
    ((GenerarTodos c rs hval).flatMap fun t => t.Boletas.map Boleta.Numero).Nodup ∧
    (∀ t ∈ GenerarTodos c rs hval, ∀ b ∈ t.Boletas,
      c.NumeroMinimo ≤ b.Numero ∧ b.Numero ≤ c.NumeroMaximo) := by
  have hv := validarConfig_ok hval
  have hTot : ((totalNumeros c : ℤ)) = c.NumeroMaximo - c.NumeroMinimo + 1 := by
    have hpos := mul_pos hv.2.1 hv.2.2.1
    have : (0:ℤ) ≤ c.NumeroMaximo - c.NumeroMinimo + 1 := by linarith [hv.1]
    unfold totalNumeros
    omega
  unfold GenerarTodos
  have hcard0 : (∅ : Finset ℤ).card + c.CantidadPaginas.toNat * c.BoletasPorPagina.toNat ≤
      totalNumeros c := by
    rw [Finset.card_empty]
    have hcast : ((c.CantidadPaginas.toNat * c.BoletasPorPagina.toNat : ℕ) : ℤ) ≤
        c.NumeroMaximo - c.NumeroMinimo + 1 := by
      push_cast
      rw [Int.toNat_of_nonneg (by omega), Int.toNat_of_nonneg (by omega)]
      calc c.CantidadPaginas * c.BoletasPorPagina
          = c.BoletasPorPagina * c.CantidadPaginas := by ring
        _ ≤ c.NumeroMaximo - c.NumeroMinimo + 1 := hv.1
    unfold totalNumeros
    omega
  have h := generarTodosAux_spec c.NumeroMinimo (totalNumeros c) rs (digitosFormato c)
    c.BoletasPorPagina.toNat c.CantidadPaginas.toNat 1 ∅ 0 (by simp) hcard0
  refine ⟨h.1, h.2.1, h.2.2.2.1, ?_⟩
  intro t ht b hb
  have h3 := h.2.2.1 t ht b hb
  refine ⟨h3.1, ?_⟩
  have := h3.2.1
  omega

/-- The deterministic cycling draw stream `k % total`: satisfies the
`rand.Intn` contract and fairness, used to instantiate run theorems on
concrete inputs. -/
def modStream (total : ℕ) (h : 0 < total) : RandStream total where
  s := fun k => k % total
  bounded := fun k => Nat.mod_lt k h
  complete := by
    intro start v hv
    refine ⟨start / total * total + total + v, ?_, ?_⟩
    · have hd := Nat.div_add_mod start total
      have hm := Nat.mod_lt start h
      have hc : total * (start / total) = start / total * total := Nat.mul_comm _ _
      omega
    · show (start / total * total + total + v) % total = v
      have he : start / total * total + total + v = v + (start / total + 1) * total := by ring
      rw [he, Nat.add_mul_mod_self_right]
      exact Nat.mod_eq_of_lt hv

/-- A small fully concrete configuration (range `[0,3]`, 2 pages of 2
tickets) for instantiating the run-level theorems. -/
def configChico : Config where
  BoletasPorFila := 1
  NumeroMinimo := 0
  NumeroMaximo := 3
  BoletasPorPagina := 2
  CantidadPaginas := 2
  AnchoTalonario := 10
  AltoTalonario := 10
  MargenSuperior := 0
  MargenInferior := 0
  MargenIzquierdo := 0
  MargenDerecho := 0
  ColorTexto := ⟨248, 220, 191, 255⟩
  ColorBorde := ⟨248, 220, 191, 255⟩
  AnchoLineas := 1
  OrientacionBoletas := 0

theorem configChico_valid : validarConfig configChico = none := by decide

theorem totalChico_pos : 0 < totalNumeros configChico := by decide

/-- Witness for C1 at the concrete small configuration and cycling
stream. -/
theorem generarTodos_paginas_y_numeros_unicos_witness :
    (GenerarTodos configChico (modStream (totalNumeros configChico) totalChico_pos)
      configChico_valid).length = configChico.CantidadPaginas.toNat ∧
    (∀ t ∈ GenerarTodos configChico (modStream (totalNumeros configChico) totalChico_pos)
      configChico_valid, t.Boletas.length = configChico.BoletasPorPagina.toNat) ∧
    ((GenerarTodos configChico (modStream (totalNumeros configChico) totalChico_pos)
      configChico_valid).flatMap fun t => t.Boletas.map Boleta.Numero).Nodup ∧
    (∀ t ∈ GenerarTodos configChico (modStream (totalNumeros configChico) totalChico_pos)
      configChico_valid, ∀ b ∈ t.Boletas,
      configChico.NumeroMinimo ≤ b.Numero ∧ b.Numero ≤ configChico.NumeroMaximo) :=
  generarTodos_paginas_y_numeros_unicos configChico
    (modStream (totalNumeros configChico) totalChico_pos) configChico_valid

/-- C2: construction fails with a configuration error whenever the
requested ticket count exceeds the range size, and also on non-positive
page/ticket counts, non-positive tickets-per-row, or negative margins; a
successfully constructed generator has allocated nothing (empty used
set).  Concretely, `main`'s configuration (10×500 tickets from
`[0,9999]`) constructs, and the same with 1001 pages fails. -/
theorem newGeneradorTalonarios_validacion :
    (∀ c : Config,
      (c.NumeroMaximo - c.NumeroMinimo + 1 < c.BoletasPorPagina * c.CantidadPaginas →
        ∃ e, NewGeneradorTalonarios c = Except.error e) ∧
      (c.BoletasPorPagina ≤ 0 ∨ c.CantidadPaginas ≤ 0 →
        ∃ e, NewGeneradorTalonarios c = Except.error e) ∧
      (c.BoletasPorFila ≤ 0 → ∃ e, NewGeneradorTalonarios c = Except.error e) ∧
      (c.MargenSuperior < 0 ∨ c.MargenInferior < 0 ∨ c.MargenIzquierdo < 0 ∨
        c.MargenDerecho < 0 → ∃ e, NewGeneradorTalonarios c = Except.error e) ∧
      (∀ g, NewGeneradorTalonarios c = Except.ok g → g.numerosUsados = ∅)) ∧
    NewGeneradorTalonarios configMain =
      Except.ok ⟨configMain, ∅, digitosFormato configMain⟩ ∧
    (∃ e, NewGeneradorTalonarios { configMain with CantidadPaginas := 1001 } =
      Except.error e) := by
  refine ⟨?_, rfl, ⟨_, rfl⟩⟩
  intro c
  unfold NewGeneradorTalonarios validarConfig
  split_ifs with h1 h2 h3 h4
  · exact ⟨fun _ => ⟨_, rfl⟩, fun _ => ⟨_, rfl⟩, fun _ => ⟨_, rfl⟩, fun _ => ⟨_, rfl⟩,
      fun g hg => by cases hg⟩
  · exact ⟨fun _ => ⟨_, rfl⟩, fun _ => ⟨_, rfl⟩, fun _ => ⟨_, rfl⟩, fun _ => ⟨_, rfl⟩,
      fun g hg => by cases hg⟩
  · exact ⟨fun _ => ⟨_, rfl⟩, fun _ => ⟨_, rfl⟩, fun _ => ⟨_, rfl⟩, fun _ => ⟨_, rfl⟩,
      fun g hg => by cases hg⟩
  · exact ⟨fun _ => ⟨_, rfl⟩, fun _ => ⟨_, rfl⟩, fun _ => ⟨_, rfl⟩, fun _ => ⟨_, rfl⟩,
      fun g hg => by cases hg⟩
  · push_neg at h1 h2 h4
    refine ⟨fun hc => absurd hc (by omega), fun hc => absurd hc (by omega),
      fun hc => absurd hc h3, fun hc => absurd hc (by omega), fun g hg => ?_⟩
    injection hg with hg'
    subst hg'
    rfl

/-- Witness for C2: each rejection branch fires on a concrete bad
configuration, and the constructed generator for `main`'s configuration
holds an empty used set. -/
theorem newGeneradorTalonarios_validacion_witness :
    (∃ e, NewGeneradorTalonarios { configMain with CantidadPaginas := 1001 } =
      Except.error e) ∧
    (∃ e, NewGeneradorTalonarios { configMain with BoletasPorPagina := 0 } =
      Except.error e) ∧
    (∃ e, NewGeneradorTalonarios { configMain with BoletasPorFila := 0 } =
      Except.error e) ∧
    (∃ e, NewGeneradorTalonarios { configMain with MargenSuperior := -1 } =
      Except.error e) ∧
    (⟨configMain, ∅, digitosFormato configMain⟩ : GeneradorTalonarios).numerosUsados = ∅ :=
  ⟨(newGeneradorTalonarios_validacion.1 _).1 (by decide),
    (newGeneradorTalonarios_validacion.1 _).2.1 (by decide),
    (newGeneradorTalonarios_validacion.1 _).2.2.1 (by decide),
    (newGeneradorTalonarios_validacion.1 _).2.2.2.1 (by decide),
    (newGeneradorTalonarios_validacion.1 configMain).2.2.2.2 _
      newGeneradorTalonarios_validacion.2.1⟩

/-- Literal transliteration of the `for`-loop of `generarNumeroAleatorio`
with an iteration budget: draw `min + s start`; if used, loop on the next
draw; otherwise record and return.  `none` means the budget ran out. -/
def generarNumeroAleatorioFuel (mn : ℤ) (s : ℕ → ℕ) :
    (fuel : ℕ) → (used : Finset ℤ) → (start : ℕ) → Option (ℤ × Finset ℤ × ℕ)
  | 0, _, _ => none
  | fuel + 1, used, start =>
    let numero := mn + (s start : ℤ)
    if numero ∈ used then generarNumeroAleatorioFuel mn s fuel used (start + 1)
    else some (numero, insert numero used, start + 1)

/-- One-step unfolding of the loop body. -/
theorem generarNumeroAleatorioFuel_succ (mn : ℤ) (s : ℕ → ℕ) (fuel : ℕ) (used : Finset ℤ)
    (start : ℕ) :
    generarNumeroAleatorioFuel mn s (fuel + 1) used start =
      if (mn + (s start : ℤ)) ∈ used then generarNumeroAleatorioFuel mn s fuel used (start + 1)
      else some (mn + (s start : ℤ), insert (mn + (s start : ℤ)) used, start + 1) := rfl

/-- If the draw `k` positions ahead is fresh, a budget of `k + 1`
iterations suffices for the loop to return. -/
theorem generarNumeroAleatorioFuel_some (mn : ℤ) (s : ℕ → ℕ) (used : Finset ℤ) :
    ∀ (k start : ℕ), (mn + (s (start + k) : ℤ)) ∉ used →
    ∃ r, generarNumeroAleatorioFuel mn s (k + 1) used start = some r := by
  intro k
  induction k with
  | zero =>
    intro start h
    rw [Nat.add_zero] at h
    refine ⟨(mn + (s start : ℤ), insert (mn + (s start : ℤ)) used, start + 1), ?_⟩
    rw [generarNumeroAleatorioFuel_succ, if_neg h]
  | succ n ih =>
    intro start h
    by_cases hm : (mn + (s start : ℤ)) ∈ used
    · have he : start + (n + 1) = (start + 1) + n := by omega
      rw [he] at h
      obtain ⟨r, hr⟩ := ih (start + 1) h
      refine ⟨r, ?_⟩
      rw [generarNumeroAleatorioFuel_succ, if_pos hm, hr]
    · refine ⟨(mn + (s start : ℤ), insert (mn + (s start : ℤ)) used, start + 1), ?_⟩
      rw [generarNumeroAleatorioFuel_succ, if_neg hm]

/-- C7: under the precondition the capacity check establishes — all used
numbers lie in the range and fewer are used than the range holds — the
rejection-sampling loop terminates: some iteration budget makes the
transliterated loop return. -/
theorem generarNumeroAleatorio_termina (mn : ℤ) (total : ℕ) (rs : RandStream total)
    (used : Finset ℤ) (start : ℕ)
    (hsub : used ⊆ Finset.Ico mn (mn + (total : ℤ))) (hlt : used.card < total) :
    ∃ fuel r, generarNumeroAleatorioFuel mn rs.s fuel used start = some r := by
  obtain ⟨k, hk⟩ := exists_unused mn total rs used start hsub hlt
  obtain ⟨r, hr⟩ := generarNumeroAleatorioFuel_some mn rs.s used k start hk
  exact ⟨k + 1, r, hr⟩

/-- Witness for C7: range `[0,1]` with `0` already used and the cycling
stream — the loop terminates. -/
theorem generarNumeroAleatorio_termina_witness :
    ({0} : Finset ℤ) ⊆ Finset.Ico (0 : ℤ) (0 + ((2 : ℕ) : ℤ)) ∧
    ({0} : Finset ℤ).card < 2 ∧
    ∃ fuel r, generarNumeroAleatorioFuel 0 (modStream 2 (by decide)).s fuel {0} 0 = some r :=
  ⟨by decide, by decide,
    generarNumeroAleatorio_termina 0 2 (modStream 2 (by decide)) {0} 0 (by decide) (by decide)⟩

/-- The fuel-based digit loop agrees with `Nat.digits 10` whenever the
fuel covers the argument. -/
theorem itoaNatAux_eq_digits : ∀ (fuel n : ℕ), n ≤ fuel → itoaNatAux fuel n = Nat.digits 10 n := by
  intro fuel
  induction fuel with
  | zero =>
    intro n hn
    have : n = 0 := by omega
    subst this
    simp [itoaNatAux]
  | succ f ih =>
    intro n hn
    match n with
    | 0 => simp [itoaNatAux]
    | m + 1 =>
      show ((m + 1) % 10) :: itoaNatAux f ((m + 1) / 10) = Nat.digits 10 (m + 1)
      rw [ih ((m + 1) / 10) (by omega), Nat.digits_def' (by norm_num) (Nat.succ_pos m)]

/-- Length of the decimal representation: one for zero, otherwise the
base-10 digit count. -/
theorem itoaNat_length (n : ℕ) : (itoaNat n).length = max 1 (Nat.digits 10 n).length := by
  unfold itoaNat
  by_cases h : n = 0
  · subst h
    simp
    rfl
  · rw [if_neg h, String.length_mk, List.length_map, List.length_reverse,
      itoaNatAux_eq_digits n n le_rfl]
    have hne : Nat.digits 10 n ≠ [] := Nat.digits_ne_nil_iff_ne_zero.mpr h
    have : 1 ≤ (Nat.digits 10 n).length := by
      cases hd : Nat.digits 10 n with
      | nil => exact absurd hd hne
      | cons a l => simp
    omega

/-- Padding a string never shortens it: the result has length
`max w s.length`. -/
theorem leftPad_length (w : ℕ) (ch : Char) (s : String) :
    (leftPad w ch s).length = max w s.length := by
  unfold leftPad
  rw [String.length_append, String.length_mk, List.length_replicate]
  omega

/-- For a non-negative maximum the format width is the length of the
decimal representation of the maximum. -/
theorem digitosFormato_nonneg (c : Config) (h : 0 ≤ c.NumeroMaximo) :
    digitosFormato c = (itoaNat c.NumeroMaximo.toNat).length := by
  unfold digitosFormato itoaInt
  rw [if_neg (not_lt.mpr h)]

/-- C3 (amended): for every non-negative `v` with `min ≤ v ≤ max`,
formatting yields the decimal representation of `v` left-padded with
`'0'` to exactly `digitWidth` characters, where `digitWidth` is the
base-10 digit count of `max`; in particular `format 7 = "0007"` and
`format 9999 = "9999"` for `max = 9999`.  (For negative `v` — reachable
when `min < 0` — Go emits a sign and the width can exceed `digitWidth`;
see the counterexample.) -/
theorem formatearNumero_ancho_fijo :
    (∀ (c : Config) (v : ℤ), c.NumeroMinimo ≤ v → v ≤ c.NumeroMaximo → 0 ≤ v →
      formatearNumero (digitosFormato c) v =
        leftPad (digitosFormato c) '0' (itoaNat v.toNat) ∧
      (formatearNumero (digitosFormato c) v).length = digitosFormato c ∧
      digitosFormato c = max 1 (Nat.digits 10 c.NumeroMaximo.toNat).length) ∧
    formatearNumero (digitosFormato configMain) 7 = "0007" ∧
    formatearNumero (digitosFormato configMain) 9999 = "9999" := by
  refine ⟨?_, by decide, by decide⟩
  intro c v h1 h2 h3
  have hmax : (0 : ℤ) ≤ c.NumeroMaximo := le_trans h3 h2
  have heq : formatearNumero (digitosFormato c) v =
      leftPad (digitosFormato c) '0' (itoaNat v.toNat) := by
    unfold formatearNumero
    rw [if_neg (not_lt.mpr h3)]
  refine ⟨heq, ?_, ?_⟩
  · rw [heq, leftPad_length]
    have hlen : (itoaNat v.toNat).length ≤ digitosFormato c := by
      rw [digitosFormato_nonneg c hmax, itoaNat_length, itoaNat_length]
      have hmono := Nat.le_digits_len_le 10 v.toNat c.NumeroMaximo.toNat
        (Int.toNat_le_toNat h2)
      omega
    omega
  · rw [digitosFormato_nonneg c hmax, itoaNat_length]

/-- A validated configuration with a partly negative range
(`min = -7`, `max = 9`). -/
def configNegativo : Config := { configChico with NumeroMinimo := -7, NumeroMaximo := 9 }

/-- C3 counterexample: under `configNegativo` (which passes validation),
`v = -7` lies in `[min, max]`, the construction-time digit width is `1`
(one base-10 digit in `max = 9`), yet formatting `-7` returns the
two-character string `"-7"` — not a string of exactly `digitWidth`
characters. -/
theorem formatearNumero_negativo_contraejemplo :
    validarConfig configNegativo = none ∧
    configNegativo.NumeroMinimo ≤ -7 ∧ (-7 : ℤ) ≤ configNegativo.NumeroMaximo ∧
    digitosFormato configNegativo = 1 ∧
    formatearNumero (digitosFormato configNegativo) (-7) = "-7" ∧
    (formatearNumero (digitosFormato configNegativo) (-7)).length ≠
      digitosFormato configNegativo := by
  refine ⟨by decide, by decide, by decide, by decide, by decide, by decide⟩

/-- Witness for C3 (amended) at `configMain` and `v = 7`. -/
theorem formatearNumero_ancho_fijo_witness :
    (configMain.NumeroMinimo ≤ 7 ∧ (7 : ℤ) ≤ configMain.NumeroMaximo ∧ (0 : ℤ) ≤ 7) ∧
    (formatearNumero (digitosFormato configMain) 7 =
      leftPad (digitosFormato configMain) '0' (itoaNat (7 : ℤ).toNat) ∧
    (formatearNumero (digitosFormato configMain) 7).length = digitosFormato configMain ∧
    digitosFormato configMain = max 1 (Nat.digits 10 configMain.NumeroMaximo.toNat).length) :=
  ⟨⟨by decide, by decide, by decide⟩,
    formatearNumero_ancho_fijo.1 configMain 7 (by decide) (by decide) (by decide)⟩

/-- `filas` from `crearImagenTalonario`: Go integer division (truncating,
here on non-negative operands) of `len(Boletas) + BoletasPorFila - 1` by
`BoletasPorFila`. -/
def filasTalonario (numBoletas bpf : ℤ) : ℤ := (numBoletas + bpf - 1).tdiv bpf

/-- `anchoBoleta` from `crearImagenTalonario`. -/
def anchoBoleta (c : Config) : ℤ :=
  (c.AnchoTalonario - c.MargenDerecho - c.MargenIzquierdo).tdiv c.BoletasPorFila

/-- `altoBoleta` from `crearImagenTalonario`. -/
def altoBoleta (c : Config) (filas : ℤ) : ℤ :=
  (c.AltoTalonario - c.MargenSuperior - c.MargenInferior).tdiv filas

/-- The cell origin `(x, y)` computed per ticket index `i` in
`crearImagenTalonario`'s loop: `columna = i % BoletasPorFila`,
`fila = i / BoletasPorFila`. -/
def origenCelda (c : Config) (ancho alto : ℤ) (i : ℤ) : ℤ × ℤ :=
  (i.tmod c.BoletasPorFila * ancho + c.MargenIzquierdo,
   i.tdiv c.BoletasPorFila * alto + c.MargenSuperior)

/-- Go's `(a + b - 1) / b` on a non-negative numerator and positive
divisor is the rational ceiling of `a / b`. -/
theorem tdiv_add_sub_one_eq_ceil (a b : ℤ) (ha : 0 ≤ a) (hb : 0 < b) :
    (a + b - 1).tdiv b = ⌈(a : ℚ) / (b : ℚ)⌉ := by
  rw [Int.tdiv_eq_ediv (by omega) (by omega)]
  have hspec := Int.ediv_add_emod (a + b - 1) b
  have hr0 : 0 ≤ (a + b - 1) % b := Int.emod_nonneg _ (by omega)
  have hrb : (a + b - 1) % b < b := Int.emod_lt_of_pos _ hb
  have hbq : (0 : ℚ) < (b : ℚ) := by exact_mod_cast hb
  symm
  rw [Int.ceil_eq_iff]
  constructor
  · rw [lt_div_iff₀ hbq]
    have key : ((a + b - 1) / b - 1) * b < a := by nlinarith [hspec, hr0]
    exact_mod_cast key
  · rw [div_le_iff₀ hbq]
    have key : a ≤ ((a + b - 1) / b) * b := by nlinarith [hspec, hrb]
    exact_mod_cast key

/-- C4: for a validated configuration the page grid satisfies
`rows = ceil(ticketCount / ticketsPerRow)`, the cell sizes are the
integer divisions of the printable area, the cell origin of ticket `i` is
`(i mod perRow · cellW + marginLeft, i div perRow · cellH + marginTop)`;
on `main`'s geometry this gives `rows = 10`, `cellWidth = 980`,
`cellHeight = 87`, and the last row's bottom edge stays within
`canvasHeight − marginBottom` plus the floor-division remainder. -/
theorem geometria_celdas (c : Config) (hval : validarConfig c = none) :
    (filasTalonario c.BoletasPorPagina c.BoletasPorFila =
      ⌈(c.BoletasPorPagina : ℚ) / (c.BoletasPorFila : ℚ)⌉ ∧
    anchoBoleta c =
      (c.AnchoTalonario - c.MargenIzquierdo - c.MargenDerecho).tdiv c.BoletasPorFila ∧
    altoBoleta c (filasTalonario c.BoletasPorPagina c.BoletasPorFila) =
      (c.AltoTalonario - c.MargenSuperior - c.MargenInferior).tdiv
        (filasTalonario c.BoletasPorPagina c.BoletasPorFila) ∧
    (∀ i : ℤ,
      (origenCelda c (anchoBoleta c)
        (altoBoleta c (filasTalonario c.BoletasPorPagina c.BoletasPorFila)) i).1 =
          i.tmod c.BoletasPorFila * anchoBoleta c + c.MargenIzquierdo ∧
      (origenCelda c (anchoBoleta c)
        (altoBoleta c (filasTalonario c.BoletasPorPagina c.BoletasPorFila)) i).2 =
          i.tdiv c.BoletasPorFila *
            altoBoleta c (filasTalonario c.BoletasPorPagina c.BoletasPorFila) +
            c.MargenSuperior)) ∧
    filasTalonario configMain.BoletasPorPagina configMain.BoletasPorFila = 10 ∧
    anchoBoleta configMain = 980 ∧
    altoBoleta configMain 10 = 87 ∧
    (origenCelda configMain (anchoBoleta configMain) (altoBoleta configMain 10) 9).2 +
        altoBoleta configMain 10 ≤
      configMain.AltoTalonario - configMain.MargenInferior +
        (configMain.AltoTalonario - configMain.MargenSuperior -
          configMain.MargenInferior).tmod 10 := by
  obtain ⟨hcap, hbpp, hpag, hbpf, h1, h2, h3, h4⟩ := validarConfig_ok hval
  refine ⟨⟨?_, ?_, rfl, fun i => ⟨rfl, rfl⟩⟩, by decide, by decide, by decide, by decide⟩
  · exact tdiv_add_sub_one_eq_ceil c.BoletasPorPagina c.BoletasPorFila (by omega) hbpf
  · unfold anchoBoleta
    congr 1
    ring

/-- Witness for C4 at `main`'s configuration. -/
theorem geometria_celdas_witness :
    validarConfig configMain = none ∧
    filasTalonario configMain.BoletasPorPagina configMain.BoletasPorFila =
      ⌈(configMain.BoletasPorPagina : ℚ) / (configMain.BoletasPorFila : ℚ)⌉ ∧
    anchoBoleta configMain = 980 ∧
    altoBoleta configMain 10 = 87 :=
  ⟨by decide, (geometria_celdas configMain (by decide)).1.1,
    (geometria_celdas configMain (by decide)).2.2.1,
    (geometria_celdas configMain (by decide)).2.2.2.1⟩

/-- C10: although validation never compares `min` and `max` directly,
every configuration that passes it has a non-empty range (`min ≤ max`, so
the `rand.Intn` argument is positive) and a positive row count (so the
cell-height division never divides by zero). -/
theorem validacion_rango_no_vacio_y_filas_pos (c : Config)
    (hval : validarConfig c = none) :
    c.NumeroMinimo ≤ c.NumeroMaximo ∧
    0 < c.NumeroMaximo - c.NumeroMinimo + 1 ∧
    0 < filasTalonario c.BoletasPorPagina c.BoletasPorFila := by
  obtain ⟨hcap, hbpp, hpag, hbpf, h1, h2, h3, h4⟩ := validarConfig_ok hval
  have hT : 0 < c.NumeroMaximo - c.NumeroMinimo + 1 :=
    lt_of_lt_of_le (mul_pos hbpp hpag) hcap
  refine ⟨by omega, hT, ?_⟩
  unfold filasTalonario
  rw [Int.tdiv_eq_ediv (by omega) (by omega)]
  have h9 : (1 : ℤ) ≤ (c.BoletasPorPagina + c.BoletasPorFila - 1) / c.BoletasPorFila :=
    (Int.le_ediv_iff_mul_le hbpf).mpr (by omega)
  omega

/-- Witness for C10 at `main`'s configuration. -/
theorem validacion_rango_no_vacio_y_filas_pos_witness :
    validarConfig configMain = none ∧
    (configMain.NumeroMinimo ≤ configMain.NumeroMaximo ∧
    0 < configMain.NumeroMaximo - configMain.NumeroMinimo + 1 ∧
    0 < filasTalonario configMain.BoletasPorPagina configMain.BoletasPorFila) :=
  ⟨by decide, validacion_rango_no_vacio_y_filas_pos configMain (by decide)⟩

/-- Pointwise behavior of a single `Set`: the pixel changes exactly when
the write is in bounds and lands on it. -/
theorem setPix_apply (W H : ℤ) (img : Canvas) (px py : ℤ) (col : RGBA) (p q : ℤ) :
    setPix W H img px py col p q =
      if (0 ≤ px ∧ px < W ∧ 0 ≤ py ∧ py < H) ∧ p = px ∧ q = py then col else img p q := by
  unfold setPix
  rw [apply_ite (fun f : Canvas => f p q)]
  by_cases h : 0 ≤ px ∧ px < W ∧ 0 ≤ py ∧ py < H
  · rw [if_pos h]
    show (if p = px ∧ q = py then col else img p q) = _
    by_cases h2 : p = px ∧ q = py
    · rw [if_pos h2, if_pos ⟨h, h2⟩]
    · rw [if_neg h2, if_neg (fun hc => h2 hc.2)]
  · rw [if_neg h, if_neg (fun hc => h hc.1)]

/-- A left fold whose body either paints `col` onto the observed pixel or
leaves it alone paints it exactly when some iteration hits it. -/
theorem foldl_pinta {α : Type} (body : Canvas → α → Canvas) (P : α → Prop) [DecidablePred P]
    (col : RGBA) (p q : ℤ)
    (hbody : ∀ im a, body im a p q = if P a then col else im p q) :
    ∀ (l : List α) (img : Canvas),
      (l.foldl body img) p q = if ∃ a ∈ l, P a then col else img p q := by
  intro l
  induction l with
  | nil => intro img; simp
  | cons b l ih =>
    intro img
    rw [List.foldl_cons, ih, hbody]
    by_cases hb : P b
    · by_cases hl : ∃ a ∈ l, P a <;> simp [hb, hl]
    · by_cases hl : ∃ a ∈ l, P a <;> simp [hb, hl]

/-- Pointwise behavior of one guarded stroke loop. -/
theorem foldl_setPix_apply (W H : ℤ) (col : RGBA) (guard : ℕ → Prop) [DecidablePred guard]
    (fx fy : ℕ → ℤ) (l : List ℕ) (img : Canvas) (p q : ℤ) :
    (l.foldl (fun im t => if guard t then setPix W H im (fx t) (fy t) col else im) img) p q =
      if ∃ t ∈ l, guard t ∧ p = fx t ∧ q = fy t ∧ 0 ≤ p ∧ p < W ∧ 0 ≤ q ∧ q < H
      then col else img p q := by
  apply foldl_pinta
  intro im a
  rw [apply_ite (fun f : Canvas => f p q)]
  by_cases hg : guard a
  · rw [if_pos hg, setPix_apply]
    by_cases hpq : p = fx a ∧ q = fy a
    · obtain ⟨hp, hq⟩ := hpq
      subst hp
      subst hq
      by_cases hb : 0 ≤ fx a ∧ fx a < W ∧ 0 ≤ fy a ∧ fy a < H
      · rw [if_pos ⟨hb, rfl, rfl⟩, if_pos ⟨hg, rfl, rfl, hb⟩]
      · rw [if_neg (fun hc => hb hc.1), if_neg (fun hc => hb hc.2.2.2)]
    · rw [if_neg (fun hc => hpq hc.2), if_neg (fun hc => hpq ⟨hc.2.1, hc.2.2.1⟩)]
  · rw [if_neg hg, if_neg (fun hc => hg hc.1)]

/-- `dibujarLineaSuperior`: the separator rule.  Sweeps the printable
width; a column beyond the right canvas edge is skipped (`continue`), and
each of the `AnchoLineas` thickness rows is written when above the bottom
canvas edge; `Set` clips the rest. -/
def dibujarLineaSuperior (c : Config) (W H : ℤ) (img : Canvas) (x y : ℤ) (col : RGBA) :
    Canvas :=
  (List.range (c.AnchoTalonario - c.MargenIzquierdo - c.MargenDerecho).toNat).foldl
    (fun im (i : ℕ) =>
      if W ≤ x + (i : ℤ) then im
      else
        (List.range c.AnchoLineas.toNat).foldl
          (fun im2 (t : ℕ) =>
            if y + (t : ℤ) < H then setPix W H im2 (x + (i : ℤ)) (y + (t : ℤ)) col else im2)
          im)
    img

/-- `dibujarRectangulo`: first loop strokes the bottom edge
(`y + alto - 1 - thick` rows across the width), second loop strokes the
left (`x + thick`) and right (`x + ancho - 1 - thick`) columns down the
height.  No loop touches the top edge band. -/
def dibujarRectangulo (c : Config) (W H : ℤ) (img : Canvas) (x y ancho alto : ℤ)
    (col : RGBA) : Canvas :=
  let img1 := (List.range ancho.toNat).foldl
    (fun im (i : ℕ) =>
      if W ≤ x + (i : ℤ) then im
      else
        (List.range c.AnchoLineas.toNat).foldl
          (fun im2 (t : ℕ) =>
            if y + alto - 1 - (t : ℤ) < H then
              setPix W H im2 (x + (i : ℤ)) (y + alto - 1 - (t : ℤ)) col
            else im2)
          im)
    img
  (List.range alto.toNat).foldl
    (fun im (i : ℕ) =>
      if H ≤ y + (i : ℤ) then im
      else
        (List.range c.AnchoLineas.toNat).foldl
          (fun im2 (t : ℕ) =>
            if x + ancho - 1 - (t : ℤ) < W then
              setPix W H im2 (x + ancho - 1 - (t : ℤ)) (y + (i : ℤ)) col
            else im2)
          ((List.range c.AnchoLineas.toNat).foldl
            (fun im2 (t : ℕ) =>
              if x + (t : ℤ) < W then setPix W H im2 (x + (t : ℤ)) (y + (i : ℤ)) col else im2)
            im))
    img1

/-- The set of pixels the separator rule writes. -/
def lineaHit (c : Config) (W H x y p q : ℤ) : Prop :=
  ∃ i : ℕ, i < (c.AnchoTalonario - c.MargenIzquierdo - c.MargenDerecho).toNat ∧
  ∃ t : ℕ, t < c.AnchoLineas.toNat ∧
    p = x + (i : ℤ) ∧ q = y + (t : ℤ) ∧ 0 ≤ p ∧ p < W ∧ 0 ≤ q ∧ q < H

/-- The set of pixels `dibujarRectangulo` writes: the bottom band, the
left band and the right band, clipped to the canvas — and nothing else
(in particular no top band). -/
def rectanguloHit (c : Config) (W H x y ancho alto p q : ℤ) : Prop :=
  (∃ i : ℕ, i < ancho.toNat ∧ ∃ t : ℕ, t < c.AnchoLineas.toNat ∧
    p = x + (i : ℤ) ∧ q = y + alto - 1 - (t : ℤ) ∧ 0 ≤ p ∧ p < W ∧ 0 ≤ q ∧ q < H) ∨
  (∃ i : ℕ, i < alto.toNat ∧ ∃ t : ℕ, t < c.AnchoLineas.toNat ∧
    p = x + (t : ℤ) ∧ q = y + (i : ℤ) ∧ 0 ≤ p ∧ p < W ∧ 0 ≤ q ∧ q < H) ∨
  (∃ i : ℕ, i < alto.toNat ∧ ∃ t : ℕ, t < c.AnchoLineas.toNat ∧
    p = x + ancho - 1 - (t : ℤ) ∧ q = y + (i : ℤ) ∧ 0 ≤ p ∧ p < W ∧ 0 ≤ q ∧ q < H)

instance lineaHitDecidable (c : Config) (W H x y p q : ℤ) :
    Decidable (lineaHit c W H x y p q) := by
  unfold lineaHit
  infer_instance

instance rectanguloHitDecidable (c : Config) (W H x y ancho alto p q : ℤ) :
    Decidable (rectanguloHit c W H x y ancho alto p q) := by
  unfold rectanguloHit
  infer_instance

/-- Pointwise characterization of the separator rule. -/
theorem dibujarLineaSuperior_apply (c : Config) (W H : ℤ) (img : Canvas) (x y : ℤ)
    (col : RGBA) (p q : ℤ) :
    dibujarLineaSuperior c W H img x y col p q =
      if lineaHit c W H x y p q then col else img p q := by
  unfold dibujarLineaSuperior
  have hOuter : ∀ (im : Canvas) (i : ℕ),
      (if W ≤ x + (i : ℤ) then im
       else
        (List.range c.AnchoLineas.toNat).foldl
          (fun im2 (t : ℕ) =>
            if y + (t : ℤ) < H then setPix W H im2 (x + (i : ℤ)) (y + (t : ℤ)) col else im2)
          im) p q =
      if ¬(W ≤ x + (i : ℤ)) ∧ ∃ t ∈ List.range c.AnchoLineas.toNat, (y + (t : ℤ) < H) ∧
          p = x + (i : ℤ) ∧ q = y + (t : ℤ) ∧ 0 ≤ p ∧ p < W ∧ 0 ≤ q ∧ q < H
      then col else im p q := by
    intro im i
    rw [apply_ite (fun f : Canvas => f p q)]
    by_cases hg : W ≤ x + (i : ℤ)
    · rw [if_pos hg, if_neg (fun hc => hc.1 hg)]
    · rw [if_neg hg, foldl_setPix_apply]
      exact if_congr (by tauto) rfl rfl
  rw [foldl_pinta _ _ col p q hOuter]
  refine if_congr ⟨?_, ?_⟩ rfl rfl
  · rintro ⟨i, hi, -, t, ht, -, hp, hq, hb⟩
    exact ⟨i, List.mem_range.mp hi, t, List.mem_range.mp ht, hp, hq, hb⟩
  · rintro ⟨i, hi, t, ht, hp, hq, h0p, hpW, h0q, hqH⟩
    exact ⟨i, List.mem_range.mpr hi, by omega, t, List.mem_range.mpr ht, by omega,
      hp, hq, h0p, hpW, h0q, hqH⟩

/-- Two chained one-armed paints collapse to one guarded by the
disjunction. -/
theorem ite_ite_or {α : Type} {P Q R : Prop} [Decidable P] [Decidable Q] [Decidable R]
    (h : R ↔ Q ∨ P) (a b : α) :
    (if P then a else if Q then a else b) = if R then a else b := by
  split_ifs <;> first | rfl | tauto

/-- Pointwise characterization of `dibujarRectangulo`: a pixel ends up
with the border color exactly when one of the bottom, left or right
stroke loops writes it (clipped to the canvas); every other pixel keeps
its previous color. -/
theorem dibujarRectangulo_apply (c : Config) (W H : ℤ) (img : Canvas) (x y ancho alto : ℤ)
    (col : RGBA) (p q : ℤ) :
    dibujarRectangulo c W H img x y ancho alto col p q =
      if rectanguloHit c W H x y ancho alto p q then col else img p q := by
  have hB : ∀ (im : Canvas) (i : ℕ),
      (if W ≤ x + (i : ℤ) then im
       else
        (List.range c.AnchoLineas.toNat).foldl
          (fun im2 (t : ℕ) =>
            if y + alto - 1 - (t : ℤ) < H then
              setPix W H im2 (x + (i : ℤ)) (y + alto - 1 - (t : ℤ)) col
            else im2)
          im) p q =
      if ¬(W ≤ x + (i : ℤ)) ∧ ∃ t ∈ List.range c.AnchoLineas.toNat,
          (y + alto - 1 - (t : ℤ) < H) ∧ p = x + (i : ℤ) ∧ q = y + alto - 1 - (t : ℤ) ∧
          0 ≤ p ∧ p < W ∧ 0 ≤ q ∧ q < H
      then col else im p q := by
    intro im i
    rw [apply_ite (fun f : Canvas => f p q)]
    by_cases hg : W ≤ x + (i : ℤ)
    · rw [if_pos hg, if_neg (fun hc => hc.1 hg)]
    · rw [if_neg hg, foldl_setPix_apply]
      exact if_congr (by tauto) rfl rfl
  have hLR : ∀ (im : Canvas) (i : ℕ),
      (if H ≤ y + (i : ℤ) then im
       else
        (List.range c.AnchoLineas.toNat).foldl
          (fun im2 (t : ℕ) =>
            if x + ancho - 1 - (t : ℤ) < W then
              setPix W H im2 (x + ancho - 1 - (t : ℤ)) (y + (i : ℤ)) col
            else im2)
          ((List.range c.AnchoLineas.toNat).foldl
            (fun im2 (t : ℕ) =>
              if x + (t : ℤ) < W then setPix W H im2 (x + (t : ℤ)) (y + (i : ℤ)) col else im2)
            im)) p q =
      if ¬(H ≤ y + (i : ℤ)) ∧
          ((∃ t ∈ List.range c.AnchoLineas.toNat, (x + (t : ℤ) < W) ∧
            p = x + (t : ℤ) ∧ q = y + (i : ℤ) ∧ 0 ≤ p ∧ p < W ∧ 0 ≤ q ∧ q < H) ∨
          (∃ t ∈ List.range c.AnchoLineas.toNat, (x + ancho - 1 - (t : ℤ) < W) ∧
            p = x + ancho - 1 - (t : ℤ) ∧ q = y + (i : ℤ) ∧ 0 ≤ p ∧ p < W ∧ 0 ≤ q ∧ q < H))
      then col else im p q := by
    intro im i
    rw [apply_ite (fun f : Canvas => f p q)]
    by_cases hg : H ≤ y + (i : ℤ)
    · rw [if_pos hg, if_neg (fun hc => hc.1 hg)]
    · rw [if_neg hg, foldl_setPix_apply, foldl_setPix_apply]
      exact ite_ite_or ⟨fun h => h.2, fun h => ⟨hg, h⟩⟩ col (im p q)
  have hiff : rectanguloHit c W H x y ancho alto p q ↔
      ((∃ i ∈ List.range ancho.toNat, ¬(W ≤ x + (i : ℤ)) ∧
        ∃ t ∈ List.range c.AnchoLineas.toNat, (y + alto - 1 - (t : ℤ) < H) ∧
          p = x + (i : ℤ) ∧ q = y + alto - 1 - (t : ℤ) ∧
          0 ≤ p ∧ p < W ∧ 0 ≤ q ∧ q < H) ∨
      (∃ i ∈ List.range alto.toNat, ¬(H ≤ y + (i : ℤ)) ∧
        ((∃ t ∈ List.range c.AnchoLineas.toNat, (x + (t : ℤ) < W) ∧
          p = x + (t : ℤ) ∧ q = y + (i : ℤ) ∧ 0 ≤ p ∧ p < W ∧ 0 ≤ q ∧ q < H) ∨
        (∃ t ∈ List.range c.AnchoLineas.toNat, (x + ancho - 1 - (t : ℤ) < W) ∧
          p = x + ancho - 1 - (t : ℤ) ∧ q = y + (i : ℤ) ∧
          0 ≤ p ∧ p < W ∧ 0 ≤ q ∧ q < H)))) := by
    unfold rectanguloHit
    simp only [List.mem_range]
    constructor
    · rintro (⟨i, hi, t, ht, hp, hq, hb⟩ | ⟨i, hi, t, ht, hp, hq, hb⟩ | ⟨i, hi, t, ht, hp, hq, hb⟩)
      · exact Or.inl ⟨i, hi, by omega, t, ht, by omega, hp, hq, hb⟩
      · exact Or.inr ⟨i, hi, by omega, Or.inl ⟨t, ht, by omega, hp, hq, hb⟩⟩
      · exact Or.inr ⟨i, hi, by omega, Or.inr ⟨t, ht, by omega, hp, hq, hb⟩⟩
    · rintro (⟨i, hi, hWi, t, ht, hH, hp, hq, hb⟩ |
        ⟨i, hi, hHi, ⟨t, ht, hW, hp, hq, hb⟩ | ⟨t, ht, hW, hp, hq, hb⟩⟩)
      · exact Or.inl ⟨i, hi, t, ht, hp, hq, hb⟩
      · exact Or.inr (Or.inl ⟨i, hi, t, ht, hp, hq, hb⟩)
      · exact Or.inr (Or.inr ⟨i, hi, t, ht, hp, hq, hb⟩)
  simp only [dibujarRectangulo]
  rw [foldl_pinta _ _ col p q hLR, foldl_pinta _ _ col p q hB]
  exact ite_ite_or hiff col (img p q)

/-- Every pixel the rectangle loops write lies inside the canvas. -/
theorem rectanguloHit_bounds {c : Config} {W H x y ancho alto p q : ℤ}
    (h : rectanguloHit c W H x y ancho alto p q) : 0 ≤ p ∧ p < W ∧ 0 ≤ q ∧ q < H := by
  rcases h with ⟨i, hi, t, ht, hp, hq, hb⟩ | ⟨i, hi, t, ht, hp, hq, hb⟩ |
    ⟨i, hi, t, ht, hp, hq, hb⟩ <;> exact hb

/-- Every pixel the separator rule writes lies inside the canvas. -/
theorem lineaHit_bounds {c : Config} {W H x y p q : ℤ}
    (h : lineaHit c W H x y p q) : 0 ≤ p ∧ p < W ∧ 0 ≤ q ∧ q < H := by
  obtain ⟨i, hi, t, ht, hp, hq, hb⟩ := h
  exact hb

/-- `dibujarBoleta`: border, then the formatted number drawn via the text
primitive, whose horizontal anchor depends on `OrientacionBoletas`
(three independent equality tests, as in the source).  `drawTexto`
abstracts the font-rendering collaborator (`font.Drawer.DrawString`
through `dibujarTexto`); `anchoCaracter` is the measured advance of
`"0"`. -/
def dibujarBoleta (drawTexto : Canvas → String → ℤ → ℤ → RGBA → Canvas) (c : Config)
    (digitos : ℕ) (anchoCaracter W H : ℤ) (img : Canvas) (b : Boleta)
    (x y ancho alto : ℤ) : Canvas :=
  let img1 := dibujarRectangulo c W H img x y ancho alto c.ColorBorde
  let img2 := if c.OrientacionBoletas = 0 then
      drawTexto img1 b.Formateado (x + anchoCaracter) (y + alto.tdiv 2) c.ColorTexto
    else img1
  let img3 := if c.OrientacionBoletas = 1 then
      drawTexto img2 b.Formateado
        (x + ancho.tdiv 2 - (anchoCaracter * (digitos : ℤ)).tdiv 2) (y + alto.tdiv 2)
        c.ColorTexto
    else img2
  if c.OrientacionBoletas = 2 then
    drawTexto img3 b.Formateado
      (x + ancho.tdiv c.BoletasPorFila - anchoCaracter * ((digitos : ℤ) + 1))
      (y + alto.tdiv 2) c.ColorTexto
  else img3

/-- `crearImagenTalonario` without a background image (`imagenBase = nil`):
black fill, separator rule at the margins, then every ticket cell drawn at
its grid origin.  The background branch composites `escalarImagen`, whose
`float64` resampling is outside this embedding. -/
def crearImagenTalonario (drawTexto : Canvas → String → ℤ → ℤ → RGBA → Canvas)
    (c : Config) (digitos : ℕ) (anchoCaracter : ℤ) (t : Talonario) : Canvas :=
  let img0 : Canvas := fun p q =>
    if 0 ≤ p ∧ p < c.AnchoTalonario ∧ 0 ≤ q ∧ q < c.AltoTalonario then
      ⟨0, 0, 0, 255⟩ else ⟨0, 0, 0, 0⟩
  let filas := filasTalonario (t.Boletas.length : ℤ) c.BoletasPorFila
  let ancho := anchoBoleta c
  let alto := altoBoleta c filas
  let img1 := dibujarLineaSuperior c c.AnchoTalonario c.AltoTalonario img0
    c.MargenIzquierdo c.MargenSuperior c.ColorBorde
  t.Boletas.enum.foldl
    (fun im pair =>
      dibujarBoleta drawTexto c digitos anchoCaracter c.AnchoTalonario c.AltoTalonario im
        pair.2 (origenCelda c ancho alto (pair.1 : ℤ)).1
        (origenCelda c ancho alto (pair.1 : ℤ)).2 ancho alto)
    img1

/-- Spec-side model of `drawRectBorder` following the spec's words: a
hollow outline of stroke thickness `AnchoLineas` along ALL FOUR edges
(top, bottom, left, right), each pixel clipped to the canvas.  Written to
be compared against `dibujarRectangulo`, the definition from the source. -/
def dibujarRectanguloSpecCuatroBordes (c : Config) (W H : ℤ) (img : Canvas)
    (x y ancho alto : ℤ) (col : RGBA) : Canvas := fun p q =>
  if (0 ≤ p ∧ p < W ∧ 0 ≤ q ∧ q < H) ∧
      ((x ≤ p ∧ p < x + ancho ∧
        ((y ≤ q ∧ q < y + c.AnchoLineas) ∨ (y + alto - c.AnchoLineas ≤ q ∧ q < y + alto))) ∨
      (y ≤ q ∧ q < y + alto ∧
        ((x ≤ p ∧ p < x + c.AnchoLineas) ∨ (x + ancho - c.AnchoLineas ≤ p ∧ p < x + ancho))))
  then col else img p q

/-- C5 counterexample: on a 10×10 canvas with stroke 1 and cell rectangle
`(2,2)–(6,6)`, the four-edge spec drawer paints the interior top-edge
pixel `(4,2)`, but the code's `dibujarRectangulo` leaves it black: the
top edge is never stroked. -/
theorem dibujarRectangulo_cuatro_bordes_contraejemplo :
    dibujarRectanguloSpecCuatroBordes configChico 10 10 (fun _ _ => ⟨0, 0, 0, 255⟩) 2 2 5 5
      ⟨248, 220, 191, 255⟩ 4 2 = ⟨248, 220, 191, 255⟩ ∧
    dibujarRectangulo configChico 10 10 (fun _ _ => ⟨0, 0, 0, 255⟩) 2 2 5 5
      ⟨248, 220, 191, 255⟩ 4 2 = ⟨0, 0, 0, 255⟩ ∧
    ((⟨0, 0, 0, 255⟩ : RGBA) ≠ ⟨248, 220, 191, 255⟩) :=
  ⟨by decide, by decide, by decide⟩

/-- C5 (amended): `dibujarRectangulo` strokes exactly the bottom, left
and right edge bands — each pixel skipped only when it falls outside the
canvas — and does not stroke the top edge (the separate top-rule
primitive covers the grid's top instead). -/
theorem dibujarRectangulo_tres_bordes (c : Config) (W H : ℤ) (img : Canvas)
    (x y ancho alto : ℤ) (col : RGBA) (p q : ℤ) :
    (rectanguloHit c W H x y ancho alto p q →
      dibujarRectangulo c W H img x y ancho alto col p q = col) ∧
    (¬rectanguloHit c W H x y ancho alto p q →
      dibujarRectangulo c W H img x y ancho alto col p q = img p q) := by
  rw [dibujarRectangulo_apply]
  constructor <;> intro h <;> simp [h]

/-- Witness for C5 (amended): the left-edge pixel `(2,2)` is painted, the
top-edge pixel `(4,2)` is untouched. -/
theorem dibujarRectangulo_tres_bordes_witness :
    (rectanguloHit configChico 10 10 2 2 5 5 2 2 ∧
      dibujarRectangulo configChico 10 10 (fun _ _ => ⟨0, 0, 0, 255⟩) 2 2 5 5
        ⟨248, 220, 191, 255⟩ 2 2 = ⟨248, 220, 191, 255⟩) ∧
    (¬rectanguloHit configChico 10 10 2 2 5 5 4 2 ∧
      dibujarRectangulo configChico 10 10 (fun _ _ => ⟨0, 0, 0, 255⟩) 2 2 5 5
        ⟨248, 220, 191, 255⟩ 4 2 = ⟨0, 0, 0, 255⟩) :=
  ⟨⟨by decide, (dibujarRectangulo_tres_bordes configChico 10 10 (fun _ _ => ⟨0, 0, 0, 255⟩)
      2 2 5 5 ⟨248, 220, 191, 255⟩ 2 2).1 (by decide)⟩,
    ⟨by decide, (dibujarRectangulo_tres_bordes configChico 10 10 (fun _ _ => ⟨0, 0, 0, 255⟩)
      2 2 5 5 ⟨248, 220, 191, 255⟩ 4 2).2 (by decide)⟩⟩

/-- C6: the drawing primitives are total and clip silently — a pixel
outside the canvas is never written, and every pixel the stroke loops do
not cover keeps its previous color; each written pixel receives exactly
the stroke color. -/
theorem dibujo_recorta_silenciosamente (c : Config) (W H : ℤ) (img : Canvas)
    (x y ancho alto lx ly : ℤ) (col : RGBA) (p q : ℤ) :
    (¬(0 ≤ p ∧ p < W ∧ 0 ≤ q ∧ q < H) →
      dibujarRectangulo c W H img x y ancho alto col p q = img p q ∧
      dibujarLineaSuperior c W H img lx ly col p q = img p q) ∧
    (dibujarRectangulo c W H img x y ancho alto col p q = col ∨
      dibujarRectangulo c W H img x y ancho alto col p q = img p q) ∧
    (dibujarLineaSuperior c W H img lx ly col p q = col ∨
      dibujarLineaSuperior c W H img lx ly col p q = img p q) ∧
    (¬rectanguloHit c W H x y ancho alto p q →
      dibujarRectangulo c W H img x y ancho alto col p q = img p q) ∧
    (¬lineaHit c W H lx ly p q →
      dibujarLineaSuperior c W H img lx ly col p q = img p q) := by
  rw [dibujarRectangulo_apply, dibujarLineaSuperior_apply]
  refine ⟨?_, ?_, ?_, ?_, ?_⟩
  · intro hout
    constructor
    · rw [if_neg (fun h => hout (rectanguloHit_bounds h))]
    · rw [if_neg (fun h => hout (lineaHit_bounds h))]
  · by_cases h : rectanguloHit c W H x y ancho alto p q <;> simp [h]
  · by_cases h : lineaHit c W H lx ly p q <;> simp [h]
  · intro h
    rw [if_neg h]
  · intro h
    rw [if_neg h]

/-- Witness for C6: pixel `(12,0)` lies outside the 10×10 canvas and both
primitives leave it unchanged; pixel `(4,2)` is covered by no stroke and
keeps its color. -/
theorem dibujo_recorta_silenciosamente_witness :
    (¬(0 ≤ (12 : ℤ) ∧ (12 : ℤ) < 10 ∧ 0 ≤ (0 : ℤ) ∧ (0 : ℤ) < 10) ∧
      (dibujarRectangulo configChico 10 10 (fun _ _ => ⟨0, 0, 0, 255⟩) 2 2 5 5
        ⟨248, 220, 191, 255⟩ 12 0 = ⟨0, 0, 0, 255⟩ ∧
      dibujarLineaSuperior configChico 10 10 (fun _ _ => ⟨0, 0, 0, 255⟩) 0 0
        ⟨248, 220, 191, 255⟩ 12 0 = ⟨0, 0, 0, 255⟩)) ∧
    (¬lineaHit configChico 10 10 0 0 4 9 ∧
      dibujarLineaSuperior configChico 10 10 (fun _ _ => ⟨0, 0, 0, 255⟩) 0 0
        ⟨248, 220, 191, 255⟩ 4 9 = ⟨0, 0, 0, 255⟩) :=
  ⟨⟨by decide, (dibujo_recorta_silenciosamente configChico 10 10 (fun _ _ => ⟨0, 0, 0, 255⟩)
      2 2 5 5 0 0 ⟨248, 220, 191, 255⟩ 12 0).1 (by decide)⟩,
    ⟨by decide, (dibujo_recorta_silenciosamente configChico 10 10 (fun _ _ => ⟨0, 0, 0, 255⟩)
      2 2 5 5 0 0 ⟨248, 220, 191, 255⟩ 4 9).2.2.2.2 (by decide)⟩⟩

/-- C8: the horizontal text anchor passed to the text primitive is, per
orientation mode: Left (`0`) — one character width right of the cell's
left edge; Center (`1`) — `x + cellW/2 - (charW·digitWidth)/2`; Right
(`2`) — `x + cellW/ticketsPerRow - charW·(digitWidth+1)`, the documented
quirk that divides the cell width by `BoletasPorFila` again.  The
vertical anchor is always the cell's vertical middle. -/
theorem dibujarBoleta_anclas_texto (drawTexto : Canvas → String → ℤ → ℤ → RGBA → Canvas)
    (c : Config) (digitos : ℕ) (anchoCaracter W H : ℤ) (img : Canvas) (b : Boleta)
    (x y ancho alto : ℤ) :
    dibujarBoleta drawTexto { c with OrientacionBoletas := 0 } digitos anchoCaracter W H
        img b x y ancho alto =
      drawTexto
        (dibujarRectangulo { c with OrientacionBoletas := 0 } W H img x y ancho alto
          c.ColorBorde)
        b.Formateado (x + anchoCaracter) (y + alto.tdiv 2) c.ColorTexto ∧
    dibujarBoleta drawTexto { c with OrientacionBoletas := 1 } digitos anchoCaracter W H
        img b x y ancho alto =
      drawTexto
        (dibujarRectangulo { c with OrientacionBoletas := 1 } W H img x y ancho alto
          c.ColorBorde)
        b.Formateado (x + ancho.tdiv 2 - (anchoCaracter * (digitos : ℤ)).tdiv 2)
        (y + alto.tdiv 2) c.ColorTexto ∧
    dibujarBoleta drawTexto { c with OrientacionBoletas := 2 } digitos anchoCaracter W H
        img b x y ancho alto =
      drawTexto
        (dibujarRectangulo { c with OrientacionBoletas := 2 } W H img x y ancho alto
          c.ColorBorde)
        b.Formateado (x + ancho.tdiv c.BoletasPorFila - anchoCaracter * ((digitos : ℤ) + 1))
        (y + alto.tdiv 2) c.ColorTexto := by
  refine ⟨?_, ?_, ?_⟩ <;> simp [dibujarBoleta]
